import Mathlib

/-!
# A verification development for the pylox tree-walking Lox interpreter

Shallow embedding of the pylox sources (scanner.py, parser.py, token.py,
environment.py, interpreter.py, loxfunction.py, loxclass.py, loxinstance.py)
into Lean 4, together with theorems settling the behavioural claims about the
spec.  Python floats are modelled as exact rationals (no claim depends on
rounding); Python exceptions are modelled as explicit signal values; mutable
objects (environments, instances) live in an explicit store indexed by
natural numbers, so that Python object identity becomes index equality.
-/

namespace PyLox

/-- Modelled from the spec: the file `token_type.py` is not among the sources;
the spec's §3 token-kind list gives the members of the `TokenType` enum
(single/double character operators, literals, keywords, and the EOF
sentinel). -/
inductive TokenType where
  | LEFT_PAREN | RIGHT_PAREN | LEFT_BRACE | RIGHT_BRACE
  | COMMA | DOT | MINUS | PLUS | SEMICOLON | SLASH | STAR
  | BANG | BANG_EQUAL | EQUAL | EQUAL_EQUAL
  | GREATER | GREATER_EQUAL | LESS | LESS_EQUAL
  | IDENTIFIER | STRING | NUMBER
  | AND | CLASS | ELSE | FALSE | FUN | FOR | IF | NIL | OR
  | PRINT | RETURN | SUPER | THIS | TRUE | VAR | WHILE
  | EOF
deriving DecidableEq, Repr

/-- A token's `literal` payload: the scanner stores a float (modelled as `ℚ`)
for NUMBER tokens and a string for STRING tokens, `None` otherwise
(scanner.py `add_token`). -/
inductive Lit where
  | num (q : ℚ)
  | str (s : String)
deriving DecidableEq, Repr

/-- token.py `Token`: kind tag, raw lexeme, optional literal, line number. -/
structure Token where
  type : TokenType
  lexeme : String
  literal : Option Lit
  line_num : Nat
deriving DecidableEq, Repr

/-! ## Scanner (scanner.py) -/

/-- scanner.py `KEYWORDS`: the reserved-word table. -/
def KEYWORDS : List (String × TokenType) :=
  [("and", .AND), ("class", .CLASS), ("else", .ELSE), ("false", .FALSE),
   ("for", .FOR), ("fun", .FUN), ("if", .IF), ("nil", .NIL), ("or", .OR),
   ("print", .PRINT), ("return", .RETURN), ("super", .SUPER), ("this", .THIS),
   ("true", .TRUE), ("var", .VAR), ("while", .WHILE)]

/-- Keyword lookup (`KEYWORDS.get(text, TokenType.IDENTIFIER)`). -/
def keywordLookup (text : String) : TokenType :=
  match KEYWORDS.find? (fun p => p.1 == text) with
  | some p => p.2
  | none => .IDENTIFIER

/-- The fields of scanner.py `Scanner`: the source (as a character list), the
accumulated tokens, the two cursors, the line counter, and the lexical errors
reported through `Lox.report` (line, message). -/
structure ScanState where
  source : List Char
  tokens : List Token
  start_offset : Nat
  current_offset : Nat
  line_num : Nat
  errors : List (Nat × String)
deriving Repr

namespace ScanState

/-- `Scanner.is_at_end`. -/
def is_at_end (s : ScanState) : Bool := s.source.length ≤ s.current_offset

/-- `Scanner.peek`: current character, or `"\0"` at the end. -/
def peek (s : ScanState) : Char :=
  if s.is_at_end then '\x00' else s.source.getD s.current_offset '\x00'

/-- `Scanner.peek_next`. -/
def peek_next (s : ScanState) : Char :=
  if s.source.length ≤ s.current_offset + 1 then '\x00'
  else s.source.getD (s.current_offset + 1) '\x00'

/-- `Scanner.advance`: return the current character and move the cursor. -/
def advance (s : ScanState) : Char × ScanState :=
  (s.source.getD s.current_offset '\x00',
   { s with current_offset := s.current_offset + 1 })

/-- The source slice `source[a:b]` used for lexemes and string literals. -/
def slice (l : List Char) (a b : Nat) : String :=
  String.mk ((l.drop a).take (b - a))

/-- `Scanner.add_token`: append a token whose lexeme is
`source[start_offset:current_offset]`. -/
def add_token (s : ScanState) (t : TokenType) (lit : Option Lit) : ScanState :=
  { s with tokens :=
      s.tokens ++ [⟨t, slice s.source s.start_offset s.current_offset, lit, s.line_num⟩] }

/-- `Scanner.match`: conditionally consume one expected character. -/
def matchChar (s : ScanState) (expected : Char) : Bool × ScanState :=
  if s.is_at_end then (false, s)
  else if s.source.getD s.current_offset '\x00' ≠ expected then (false, s)
  else (true, { s with current_offset := s.current_offset + 1 })

/-- Report a lexical error (`Lox.report(line, "", message)`). -/
def report (s : ScanState) (msg : String) : ScanState :=
  { s with errors := s.errors ++ [(s.line_num, msg)] }

end ScanState

/-- `Scanner.is_digit`. -/
def is_digit (c : Char) : Bool := '0' ≤ c && c ≤ '9'

/-- `Scanner.is_alpha`. -/
def is_alpha (c : Char) : Bool :=
  ('a' ≤ c && c ≤ 'z') || ('A' ≤ c && c ≤ 'Z') || c == '_'

/-- `Scanner.is_alpha_numeric`. -/
def is_alpha_numeric (c : Char) : Bool := is_alpha c || is_digit c

/-- Digit-string value, used to model Python's `float(...)` on the scanner's
number lexemes (which are always plain digit strings with at most one point).
Numbers are modelled as exact rationals. -/
def digitsToNat (l : List Char) : Nat :=
  l.foldl (fun acc c => acc * 10 + (c.toNat - '0'.toNat)) 0

/-- Model of `float(source[start:current])` on a scanner number lexeme:
integer part plus fractional part. -/
def parseFloat (l : List Char) : ℚ :=
  let intPart := l.takeWhile (fun c => c ≠ '.')
  let fracPart := (l.dropWhile (fun c => c ≠ '.')).drop 1
  (digitsToNat intPart : ℚ) + (digitsToNat fracPart : ℚ) / ((10 : ℚ) ^ fracPart.length)

/-- The `//` comment loop of `Scanner.scan_token`: consume characters up to
but not including the newline.  The fuel argument bounds the iteration count;
call sites pass the source length, which always suffices. -/
def skipComment : Nat → ScanState → ScanState
  | 0, s => s
  | fuel + 1, s =>
    if s.peek ≠ '\n' && !s.is_at_end then skipComment fuel (s.advance).2 else s

/-- The scanning loop of `Scanner.string`: consume characters (counting
newlines) up to the closing quote or the end of input. -/
def stringLoop : Nat → ScanState → ScanState
  | 0, s => s
  | fuel + 1, s =>
    if s.peek ≠ '"' && !s.is_at_end then
      let s1 := if s.peek == '\n' then { s with line_num := s.line_num + 1 } else s
      stringLoop fuel (s1.advance).2
    else s

/-- `Scanner.string`: scan a string literal; an unterminated string reports
`Unterminated string.` and emits no token. -/
def scanString (s : ScanState) : ScanState :=
  let s1 := stringLoop s.source.length s
  if s1.is_at_end then s1.report "Unterminated string."
  else
    let s2 := (s1.advance).2
    s2.add_token .STRING
      (some (.str (ScanState.slice s2.source (s2.start_offset + 1) (s2.current_offset - 1))))

/-- The digit-consuming loop of `Scanner.number`. -/
def digitsLoop : Nat → ScanState → ScanState
  | 0, s => s
  | fuel + 1, s =>
    if is_digit s.peek then digitsLoop fuel (s.advance).2 else s

/-- `Scanner.number`: integer part, optional fractional part, then a NUMBER
token carrying the parsed value. -/
def scanNumber (s : ScanState) : ScanState :=
  let s1 := digitsLoop s.source.length s
  let s2 :=
    if s1.peek == '.' && is_digit s1.peek_next then
      digitsLoop s1.source.length (s1.advance).2
    else s1
  s2.add_token .NUMBER
    (some (.num (parseFloat ((s2.source.drop s2.start_offset).take
      (s2.current_offset - s2.start_offset)))))

/-- The alphanumeric loop of `Scanner.identifier`. -/
def identLoop : Nat → ScanState → ScanState
  | 0, s => s
  | fuel + 1, s =>
    if is_alpha_numeric s.peek then identLoop fuel (s.advance).2 else s

/-- `Scanner.identifier`: consume the word, then classify it through the
keyword table. -/
def scanIdentifier (s : ScanState) : ScanState :=
  let s1 := identLoop s.source.length s
  s1.add_token (keywordLookup (ScanState.slice s1.source s1.start_offset s1.current_offset)) none

/-- `Scanner.scan_token`: consume one character and dispatch. -/
def scan_token (s : ScanState) : ScanState :=
  let p := s.advance
  let c := p.1
  let s1 := p.2
  match c with
  | '(' => s1.add_token .LEFT_PAREN none
  | ')' => s1.add_token .RIGHT_PAREN none
  | '{' => s1.add_token .LEFT_BRACE none
  | '}' => s1.add_token .RIGHT_BRACE none
  | ',' => s1.add_token .COMMA none
  | '.' => s1.add_token .DOT none
  | '-' => s1.add_token .MINUS none
  | '+' => s1.add_token .PLUS none
  | ';' => s1.add_token .SEMICOLON none
  | '*' => s1.add_token .STAR none
  | '!' =>
    let m := s1.matchChar '='
    m.2.add_token (if m.1 then .BANG_EQUAL else .BANG) none
  | '=' =>
    let m := s1.matchChar '='
    m.2.add_token (if m.1 then .EQUAL_EQUAL else .EQUAL) none
  | '<' =>
    let m := s1.matchChar '='
    m.2.add_token (if m.1 then .LESS_EQUAL else .LESS) none
  | '>' =>
    let m := s1.matchChar '='
    m.2.add_token (if m.1 then .GREATER_EQUAL else .GREATER) none
  | '/' =>
    let m := s1.matchChar '/'
    if m.1 then skipComment m.2.source.length m.2 else m.2.add_token .SLASH none
  | ' ' => s1
  | '\r' => s1
  | '\t' => s1
  | '\n' => { s1 with line_num := s1.line_num + 1 }
  | '"' => scanString s1
  | c =>
    if is_digit c then scanNumber s1
    else if is_alpha c then scanIdentifier s1
    else s1.report "Unexpected character."

/-- The `while not is_at_end` loop of `Scanner.scan_tokens`: set
`start_offset` and scan one token per iteration. -/
def scanTokensLoop : Nat → ScanState → ScanState
  | 0, s => s
  | fuel + 1, s =>
    if !s.is_at_end then
      scanTokensLoop fuel (scan_token { s with start_offset := s.current_offset })
    else s

/-- `Scanner.scan_tokens` on a fresh scanner for `source`: run the loop, then
append the final EOF token at the final line number. -/
def scan_tokens (source : List Char) : List Token :=
  let s0 : ScanState := ⟨source, [], 0, 0, 1, []⟩
  let s1 := scanTokensLoop (source.length + 1) s0
  s1.tokens ++ [⟨.EOF, "", none, s1.line_num⟩]

/-! ### Scanner lemmas: the line counter tracks processed newlines -/

/-- Number of newline characters in a character list. -/
def countNl (l : List Char) : Nat := l.countP (fun c => c == '\n')

/-- The scanner cursor/line invariant: the cursor stays in bounds and the
line counter is one more than the number of newlines already consumed. -/
def ScanInv (s : ScanState) : Prop :=
  s.current_offset ≤ s.source.length ∧
  s.line_num = 1 + countNl (s.source.take s.current_offset)

theorem countNl_take_succ (l : List Char) (n : Nat) (h : n < l.length) :
    countNl (l.take (n + 1)) =
      countNl (l.take n) + (if l.getD n '\x00' == '\n' then 1 else 0) := by
  rw [countNl, List.take_succ, List.countP_append]
  have hg : l[n]? = some l[n] := List.getElem?_eq_getElem h
  have hd : l.getD n '\x00' = l[n] := by
    simp [List.getD, hg]
  rw [hg, hd]
  by_cases hnl : l[n] = '\n' <;> simp [hnl, countNl]

/-- One consumed character at most: how each scanner micro-operation relates
the state before and after (source preserved, cursor monotone, invariant
preserved). -/
def Step (s s' : ScanState) : Prop :=
  s'.source = s.source ∧ s.current_offset ≤ s'.current_offset ∧
    (ScanInv s → ScanInv s')

theorem Step.refl (s : ScanState) : Step s s := ⟨rfl, Nat.le_refl _, id⟩

theorem Step.trans {a b c : ScanState} (h1 : Step a b) (h2 : Step b c) :
    Step a c :=
  ⟨h1.1 ▸ h2.1, Nat.le_trans h1.2.1 h2.2.1, fun hi => h2.2.2 (h1.2.2 hi)⟩

theorem step_of_fields {s s' : ScanState} (h1 : s'.source = s.source)
    (h2 : s'.current_offset = s.current_offset) (h3 : s'.line_num = s.line_num) :
    Step s s' := by
  refine ⟨h1, Nat.le_of_eq h2.symm, fun hi => ?_⟩
  rw [ScanInv, h1, h2, h3]
  exact hi

theorem step_add_token (s : ScanState) (t : TokenType) (l : Option Lit) :
    Step s (s.add_token t l) := step_of_fields rfl rfl rfl

theorem step_report (s : ScanState) (m : String) :
    Step s (s.report m) := step_of_fields rfl rfl rfl

theorem step_advance (s : ScanState) (h : s.current_offset < s.source.length)
    (hnl : s.source.getD s.current_offset '\x00' ≠ '\n') :
    Step s (s.advance).2 := by
  refine ⟨rfl, Nat.le_succ _, fun hi => ⟨h, ?_⟩⟩
  show s.line_num = 1 + countNl (s.source.take (s.current_offset + 1))
  rw [countNl_take_succ s.source s.current_offset h, if_neg (by simpa using hnl),
    Nat.add_zero]
  exact hi.2

theorem step_advance_nl (s : ScanState) (h : s.current_offset < s.source.length)
    (hnl : s.source.getD s.current_offset '\x00' = '\n') :
    Step s { s with current_offset := s.current_offset + 1,
                    line_num := s.line_num + 1 } := by
  refine ⟨rfl, Nat.le_succ _, fun hi => ⟨h, ?_⟩⟩
  show s.line_num + 1 = 1 + countNl (s.source.take (s.current_offset + 1))
  rw [countNl_take_succ s.source s.current_offset h, if_pos (by simpa using hnl),
    hi.2]
  omega

theorem is_at_end_iff (s : ScanState) :
    s.is_at_end = true ↔ s.source.length ≤ s.current_offset := by
  simp [ScanState.is_at_end]

theorem not_at_end_lt {s : ScanState} (h : s.is_at_end = false) :
    s.current_offset < s.source.length := by
  have := (is_at_end_iff s).not
  simp [h] at this
  omega

theorem peek_eq_getD {s : ScanState} (h : s.is_at_end = false) :
    s.peek = s.source.getD s.current_offset '\x00' := by
  rw [ScanState.peek, h]
  rfl

theorem step_matchChar (s : ScanState) (c : Char) (hc : c ≠ '\n') :
    Step s (s.matchChar c).2 := by
  rw [ScanState.matchChar]
  split
  · exact Step.refl s
  · split
    · exact Step.refl s
    · rename_i h1 h2
      have h1' : s.is_at_end = false := by
        cases hb : s.is_at_end
        · rfl
        · exact absurd hb h1
      have hlt := not_at_end_lt h1'
      have h2' : s.source.getD s.current_offset '\x00' = c := by
        by_cases hx : s.source.getD s.current_offset '\x00' = c
        · exact hx
        · exact absurd hx h2
      exact step_advance s hlt (h2' ▸ hc)

theorem peek_ne_nul_not_at_end {s : ScanState} (h : s.peek ≠ '\x00') :
    s.is_at_end = false := by
  cases hb : s.is_at_end
  · rfl
  · rw [ScanState.peek, hb] at h
    exact absurd (if_pos rfl) h

theorem digit_guard {c : Char} (h : is_digit c = true) : c ≠ '\n' ∧ c ≠ '\x00' := by
  constructor <;> intro hc <;> subst hc <;> exact absurd h (by decide)

theorem alnum_guard {c : Char} (h : is_alpha_numeric c = true) :
    c ≠ '\n' ∧ c ≠ '\x00' := by
  constructor <;> intro hc <;> subst hc <;> exact absurd h (by decide)

theorem step_skipComment (fuel : Nat) : ∀ s, Step s (skipComment fuel s) := by
  induction fuel with
  | zero => intro s; exact Step.refl s
  | succ n ih =>
    intro s
    rw [skipComment]
    split
    · rename_i hcond
      simp only [Bool.and_eq_true, Bool.not_eq_true', decide_eq_true_eq] at hcond
      obtain ⟨h1, h2⟩ := hcond
      have hlt := not_at_end_lt h2
      have hg : s.source.getD s.current_offset '\x00' ≠ '\n' := by
        rw [← peek_eq_getD h2]; exact h1
      exact (step_advance s hlt hg).trans (ih _)
    · exact Step.refl s

theorem step_stringLoop (fuel : Nat) : ∀ s, Step s (stringLoop fuel s) := by
  induction fuel with
  | zero => intro s; exact Step.refl s
  | succ n ih =>
    intro s
    rw [stringLoop]
    split
    · rename_i hcond
      simp only [Bool.and_eq_true, Bool.not_eq_true', decide_eq_true_eq] at hcond
      obtain ⟨h1, h2⟩ := hcond
      have hlt := not_at_end_lt h2
      by_cases hnl : s.peek = '\n'
      · have hg : s.source.getD s.current_offset '\x00' = '\n' := by
          rw [← peek_eq_getD h2]; exact hnl
        rw [if_pos (by simpa using hnl)]
        exact (step_advance_nl s hlt hg).trans (ih _)
      · have hg : s.source.getD s.current_offset '\x00' ≠ '\n' := by
          rw [← peek_eq_getD h2]; exact hnl
        rw [if_neg (by simpa using hnl)]
        exact (step_advance s hlt hg).trans (ih _)
    · exact Step.refl s

theorem stringLoop_exit (fuel : Nat) :
    ∀ s : ScanState, s.source.length - s.current_offset ≤ fuel →
      (stringLoop fuel s).peek = '"' ∨ (stringLoop fuel s).is_at_end = true := by
  induction fuel with
  | zero =>
    intro s h
    right
    rw [stringLoop, is_at_end_iff]
    omega
  | succ n ih =>
    intro s h
    rw [stringLoop]
    split
    · rename_i hcond
      simp only [Bool.and_eq_true, Bool.not_eq_true', decide_eq_true_eq] at hcond
      have hlt := not_at_end_lt hcond.2
      by_cases hnl : s.peek == '\n' <;>
        [rw [if_pos hnl]; rw [if_neg hnl]] <;>
        · apply ih
          show s.source.length - (s.current_offset + 1) ≤ n
          omega
    · rename_i hcond
      simp only [Bool.and_eq_true, Bool.not_eq_true', decide_eq_true_eq, not_and] at hcond
      by_cases hq : s.peek = '"'
      · exact Or.inl hq
      · cases hb : s.is_at_end
        · exact absurd hb (hcond hq)
        · exact Or.inr rfl

theorem step_digitsLoop (fuel : Nat) : ∀ s, Step s (digitsLoop fuel s) := by
  induction fuel with
  | zero => intro s; exact Step.refl s
  | succ n ih =>
    intro s
    rw [digitsLoop]
    split
    · rename_i hcond
      have hend := peek_ne_nul_not_at_end (digit_guard hcond).2
      have hlt := not_at_end_lt hend
      have hg : s.source.getD s.current_offset '\x00' ≠ '\n' := by
        rw [← peek_eq_getD hend]; exact (digit_guard hcond).1
      exact (step_advance s hlt hg).trans (ih _)
    · exact Step.refl s

theorem step_identLoop (fuel : Nat) : ∀ s, Step s (identLoop fuel s) := by
  induction fuel with
  | zero => intro s; exact Step.refl s
  | succ n ih =>
    intro s
    rw [identLoop]
    split
    · rename_i hcond
      have hend := peek_ne_nul_not_at_end (alnum_guard hcond).2
      have hlt := not_at_end_lt hend
      have hg : s.source.getD s.current_offset '\x00' ≠ '\n' := by
        rw [← peek_eq_getD hend]; exact (alnum_guard hcond).1
      exact (step_advance s hlt hg).trans (ih _)
    · exact Step.refl s

theorem step_scanString (s : ScanState) : Step s (scanString s) := by
  rw [scanString]
  have hstep := step_stringLoop s.source.length s
  have hexit := stringLoop_exit s.source.length s (Nat.sub_le _ _)
  split
  · exact hstep.trans (step_report _ _)
  · rename_i hend
    have hend' : (stringLoop s.source.length s).is_at_end = false := by
      cases hb : (stringLoop s.source.length s).is_at_end
      · rfl
      · exact absurd hb hend
    have hq : (stringLoop s.source.length s).peek = '"' := by
      rcases hexit with hq | hq
      · exact hq
      · rw [hq] at hend'; exact absurd hend' (by simp)
    have hlt := not_at_end_lt hend'
    have hg : (stringLoop s.source.length s).source.getD
        (stringLoop s.source.length s).current_offset '\x00' ≠ '\n' := by
      rw [← peek_eq_getD hend', hq]; decide
    exact hstep.trans ((step_advance _ hlt hg).trans (step_add_token _ _ _))

theorem step_scanNumber (s : ScanState) : Step s (scanNumber s) := by
  rw [scanNumber]
  refine Step.trans (step_digitsLoop s.source.length s)
    (Step.trans ?_ (step_add_token _ _ _))
  split
  · rename_i hcond
    simp only [Bool.and_eq_true, beq_iff_eq] at hcond
    have hdot : (digitsLoop s.source.length s).peek = '.' := hcond.1
    have hend := peek_ne_nul_not_at_end (s := digitsLoop s.source.length s)
      (by rw [hdot]; decide)
    have hlt := not_at_end_lt hend
    have hg : (digitsLoop s.source.length s).source.getD
        (digitsLoop s.source.length s).current_offset '\x00' ≠ '\n' := by
      rw [← peek_eq_getD hend, hdot]; decide
    exact (step_advance _ hlt hg).trans (step_digitsLoop _ _)
  · exact Step.refl _

theorem step_scanIdentifier (s : ScanState) : Step s (scanIdentifier s) := by
  rw [scanIdentifier]
  exact (step_identLoop s.source.length s).trans (step_add_token _ _ _)

/-- What `scan_token` guarantees on a not-yet-finished scanner: the source is
untouched, the cursor strictly advances, and the line/cursor invariant is
preserved. -/
def StrictSpec (s final : ScanState) : Prop :=
  final.source = s.source ∧ s.current_offset < final.current_offset ∧
    (ScanInv s → ScanInv final)

theorem strict_assemble {s final : ScanState} (h : s.is_at_end = false)
    (hnl : s.advance.1 ≠ '\n') (hB : Step (s.advance).2 final) :
    StrictSpec s final := by
  have hA : Step s (s.advance).2 := step_advance s (not_at_end_lt h) hnl
  have hC := hA.trans hB
  exact ⟨hC.1, Nat.lt_of_lt_of_le (Nat.lt_succ_self _) hB.2.1, hC.2.2⟩

theorem scan_token_spec (s : ScanState) (h : s.is_at_end = false) :
    StrictSpec s (scan_token s) := by
  have hlt := not_at_end_lt h
  rw [scan_token]
  split
  case _ heq => exact strict_assemble h (by rw [heq]; decide) (step_add_token _ _ _)
  case _ heq => exact strict_assemble h (by rw [heq]; decide) (step_add_token _ _ _)
  case _ heq => exact strict_assemble h (by rw [heq]; decide) (step_add_token _ _ _)
  case _ heq => exact strict_assemble h (by rw [heq]; decide) (step_add_token _ _ _)
  case _ heq => exact strict_assemble h (by rw [heq]; decide) (step_add_token _ _ _)
  case _ heq => exact strict_assemble h (by rw [heq]; decide) (step_add_token _ _ _)
  case _ heq => exact strict_assemble h (by rw [heq]; decide) (step_add_token _ _ _)
  case _ heq => exact strict_assemble h (by rw [heq]; decide) (step_add_token _ _ _)
  case _ heq => exact strict_assemble h (by rw [heq]; decide) (step_add_token _ _ _)
  case _ heq => exact strict_assemble h (by rw [heq]; decide) (step_add_token _ _ _)
  case _ heq =>
    exact strict_assemble h (by rw [heq]; decide)
      ((step_matchChar _ '=' (by decide)).trans (step_add_token _ _ _))
  case _ heq =>
    exact strict_assemble h (by rw [heq]; decide)
      ((step_matchChar _ '=' (by decide)).trans (step_add_token _ _ _))
  case _ heq =>
    exact strict_assemble h (by rw [heq]; decide)
      ((step_matchChar _ '=' (by decide)).trans (step_add_token _ _ _))
  case _ heq =>
    exact strict_assemble h (by rw [heq]; decide)
      ((step_matchChar _ '=' (by decide)).trans (step_add_token _ _ _))
  case _ heq =>
    refine strict_assemble h (by rw [heq]; decide)
      ((step_matchChar _ '/' (by decide)).trans ?_)
    dsimp only []
    split
    · exact step_skipComment _ _
    · exact step_add_token _ _ _
  case _ heq => exact strict_assemble h (by rw [heq]; decide) (Step.refl _)
  case _ heq => exact strict_assemble h (by rw [heq]; decide) (Step.refl _)
  case _ heq => exact strict_assemble h (by rw [heq]; decide) (Step.refl _)
  case _ heq =>
    have hg : s.source.getD s.current_offset '\x00' = '\n' := heq
    have hA := step_advance_nl s hlt hg
    exact ⟨hA.1, Nat.lt_succ_self _, hA.2.2⟩
  case _ heq => exact strict_assemble h (by rw [heq]; decide) (step_scanString _)
  case _ =>
    rename_i hnl hquote
    split
    · exact strict_assemble h hnl (step_scanNumber _)
    · split
      · exact strict_assemble h hnl (step_scanIdentifier _)
      · exact strict_assemble h hnl (step_report _ _)

theorem scanTokensLoop_spec :
    ∀ (fuel : Nat) (s : ScanState), ScanInv s →
      s.source.length - s.current_offset ≤ fuel →
      (scanTokensLoop fuel s).source = s.source ∧
        ScanInv (scanTokensLoop fuel s) ∧
        (scanTokensLoop fuel s).is_at_end = true := by
  intro fuel
  induction fuel with
  | zero =>
    intro s hinv h
    rw [scanTokensLoop]
    exact ⟨rfl, hinv, by rw [is_at_end_iff]; omega⟩
  | succ n ih =>
    intro s hinv h
    rw [scanTokensLoop]
    split
    · rename_i hcond
      have hend : s.is_at_end = false := by simpa using hcond
      have hlt := not_at_end_lt hend
      have hend1 : ScanState.is_at_end { s with start_offset := s.current_offset } = false :=
        hend
      have hinv1 : ScanInv { s with start_offset := s.current_offset } := hinv
      have hspec := scan_token_spec { s with start_offset := s.current_offset } hend1
      have hmeas : (scan_token { s with start_offset := s.current_offset }).source.length -
          (scan_token { s with start_offset := s.current_offset }).current_offset ≤ n := by
        rw [hspec.1]
        have h1 := hspec.2.1
        have h2 : ({ s with start_offset := s.current_offset } : ScanState).current_offset =
            s.current_offset := rfl
        rw [h2] at h1
        show s.source.length - _ ≤ n
        omega
      have hnext := ih (scan_token { s with start_offset := s.current_offset })
        (hspec.2.2 hinv1) hmeas
      exact ⟨by rw [hnext.1, hspec.1], hnext.2.1, hnext.2.2⟩
    · rename_i hcond
      have hend : s.is_at_end = true := by
        cases hb : s.is_at_end
        · rw [hb] at hcond; simp at hcond
        · rfl
      exact ⟨rfl, hinv, hend⟩

/-- C8: for every input source string, including ones containing lexical
errors, the token list returned by `scan_tokens` is non-empty and its last
element is an EOF token whose line number equals the scanner's final line
count, i.e. 1 plus the number of newline characters processed in the
source. -/
theorem c8_scan_tokens_ends_with_eof (source : List Char) :
    scan_tokens source ≠ [] ∧
      (scan_tokens source).getLast? =
        some ⟨.EOF, "", none, 1 + countNl source⟩ := by
  have h0 : ScanInv ⟨source, [], 0, 0, 1, []⟩ :=
    ⟨Nat.zero_le _, by simp [countNl]⟩
  have hs := scanTokensLoop_spec (source.length + 1) ⟨source, [], 0, 0, 1, []⟩
    h0 (by show source.length - 0 ≤ source.length + 1; omega)
  rw [scan_tokens]
  refine ⟨by simp, ?_⟩
  rw [List.getLast?_concat]
  have hend := hs.2.2
  rw [is_at_end_iff] at hend
  have hcur : (scanTokensLoop (source.length + 1)
      ⟨source, [], 0, 0, 1, []⟩).current_offset =
      (scanTokensLoop (source.length + 1) ⟨source, [], 0, 0, 1, []⟩).source.length :=
    Nat.le_antisymm hs.2.1.1 hend
  have hline := hs.2.1.2
  rw [hcur, List.take_length, hs.1] at hline
  rw [hline]

/-! ## AST (expr.py / stmt.py)

Modelled from the spec for the variants that parser.py and interpreter.py
construct and inspect: expr.py in the sources only contains the
`Binary`/`Grouping`/`Literal`/`Unary` dataclasses, while the remaining
expression dataclasses (`Variable`, `Assign`, `Logical`, `Call`, `Get`,
`Set`, `This`) are imported by parser.py and interpreter.py but their
declarations are not among the sources; their fields are the spec's §3
variants, matching every construction/use site.  `Variable`, `Assign` and
`This` additionally carry a numeric identity (`id`), standing for Python
object identity, which keys the resolution table (spec §3: the table is
keyed by AST node identity). -/

/-- A `Literal` expression's payload: `None`, a bool, a float or a string. -/
inductive LitVal where
  | nil
  | bool (b : Bool)
  | num (q : ℚ)
  | str (s : String)
deriving DecidableEq, Repr

inductive Expr where
  | binary (left : Expr) (operator : Token) (right : Expr)
  | grouping (expression : Expr)
  | literal (value : LitVal)
  | unary (operator : Token) (right : Expr)
  | var (id : Nat) (name : Token)
  | assign (id : Nat) (name : Token) (value : Expr)
  | logical (left : Expr) (operator : Token) (right : Expr)
  | call (callee : Expr) (paren : Token) (arguments : List Expr)
  | get (object : Expr) (name : Token)
  | set (object : Expr) (name : Token) (value : Expr)
  | this (id : Nat) (keyword : Token)
deriving Repr

mutual
/-- stmt.py `Function`: name token, parameter tokens, body statements. -/
inductive FunctionDecl where
  | mk (name : Token) (params : List Token) (body : List Stmt)

/-- stmt.py statement variants. -/
inductive Stmt where
  | expression (expression : Expr)
  | print (expression : Expr)
  | var (name : Token) (initializer : Option Expr)
  | block (statements : List Stmt)
  | ifStmt (condition : Expr) (then_branch : Stmt) (else_branch : Option Stmt)
  | whileStmt (condition : Expr) (body : Stmt)
  | function (decl : FunctionDecl)
  | returnStmt (keyword : Token) (value : Option Expr)
  | classStmt (name : Token) (methods : List FunctionDecl)
end

def FunctionDecl.name : FunctionDecl → Token
  | .mk n _ _ => n

def FunctionDecl.params : FunctionDecl → List Token
  | .mk _ p _ => p

def FunctionDecl.body : FunctionDecl → List Stmt
  | .mk _ _ b => b

/-! ## Parser (parser.py), expression grammar

The parser is embedded with an explicit cursor state and a fuel argument
bounding recursion depth (Python's recursion is bounded by the host stack);
`ParseError` (raised by `Parser.error` after reporting) is the `perr`
signal. -/

/-- Parser state: the token list, the `current` cursor, and a counter
handing out fresh AST node identities. -/
structure PState where
  tokens : List Token
  current : Nat
  nextId : Nat
deriving Repr

/-- Out-of-range token reads never happen on EOF-terminated token lists; the
default mirrors nothing in the source and is never produced by
`scan_tokens` inputs. -/
def dummyToken : Token := ⟨.EOF, "", none, 0⟩

namespace PState

/-- `Parser.peek`. -/
def peek (p : PState) : Token := p.tokens.getD p.current dummyToken

/-- `Parser.previous`. -/
def previous (p : PState) : Token := p.tokens.getD (p.current - 1) dummyToken

/-- `Parser.is_at_end`. -/
def is_at_end (p : PState) : Bool := p.peek.type == .EOF

/-- `Parser.advance`: move unless at EOF, and return `previous`. -/
def advance (p : PState) : Token × PState :=
  let p1 := if p.is_at_end then p else { p with current := p.current + 1 }
  (p1.previous, p1)

/-- `Parser.check`: the flag-enum membership `peek().type in types` is a
list membership here. -/
def check (p : PState) (types : List TokenType) : Bool :=
  if p.is_at_end then false else types.contains p.peek.type

/-- `Parser.match`. -/
def matchT (p : PState) (types : List TokenType) : Bool × PState :=
  if p.check types then (true, (p.advance).2) else (false, p)

/-- Hand out a fresh AST node identity (Python: a new object). -/
def freshId (p : PState) : Nat × PState :=
  (p.nextId, { p with nextId := p.nextId + 1 })

end PState

/-- A parse either raises `ParseError` (after reporting the token and
message through the diagnostic sink) or runs out of modelling fuel. -/
inductive PSig where
  | perr (token : Token) (message : String)
  | fuelOut
deriving Repr

namespace Parser

/-- `Parser.consume`. -/
def consume (p : PState) (t : TokenType) (msg : String) :
    Except PSig (Token × PState) :=
  if p.check [t] then .ok p.advance else .error (.perr p.peek msg)

/-- Convert `Literal(self.previous().literal)` (parser.py `primary`). -/
def litOfToken (t : Option Lit) : LitVal :=
  match t with
  | some (.num q) => .num q
  | some (.str s) => .str s
  | none => .nil

mutual

/-- parser.py `expression`: `expression → assignment`. -/
def expression : Nat → PState → Except PSig (Expr × PState)
  | 0, _ => .error .fuelOut
  | fuel + 1, p => assignment fuel p

/-- parser.py `assignment`. -/
def assignment : Nat → PState → Except PSig (Expr × PState)
  | 0, _ => .error .fuelOut
  | fuel + 1, p =>
    match logic_or fuel p with
    | .error e => .error e
    | .ok (expr, p1) =>
      let m := p1.matchT [.EQUAL]
      if m.1 then
        let equals := m.2.previous
        match assignment fuel m.2 with
        | .error e => .error e
        | .ok (value, p2) =>
          match expr with
          | .var _ name =>
            let f := p2.freshId
            .ok (.assign f.1 name value, f.2)
          | .get obj name => .ok (.set obj name value, p2)
          | _ => .error (.perr equals "Invalid assignment target.")
      else .ok (expr, p1)

/-- parser.py `logic_or`: `logic_and ( "or" logic_and )*`. -/
def logic_or : Nat → PState → Except PSig (Expr × PState)
  | 0, _ => .error .fuelOut
  | fuel + 1, p =>
    match logic_and fuel p with
    | .error e => .error e
    | .ok (expr, p1) => logicOrLoop fuel expr p1

/-- The `while self.match(TokenType.OR)` loop of `logic_or`. -/
def logicOrLoop : Nat → Expr → PState → Except PSig (Expr × PState)
  | 0, _, _ => .error .fuelOut
  | fuel + 1, expr, p =>
    let m := p.matchT [.OR]
    if m.1 then
      let op := m.2.previous
      match logic_and fuel m.2 with
      | .error e => .error e
      | .ok (right, p1) => logicOrLoop fuel (.logical expr op right) p1
    else .ok (expr, p)

/-- parser.py `logic_and`.  NOTE: faithfully to the source, the right
operand is parsed by a recursive call to `logic_and` itself (parser.py line
102), not by `equality` as the grammar comment above it states. -/
def logic_and : Nat → PState → Except PSig (Expr × PState)
  | 0, _ => .error .fuelOut
  | fuel + 1, p =>
    match equality fuel p with
    | .error e => .error e
    | .ok (expr, p1) => logicAndLoop fuel expr p1

/-- The `while self.match(TokenType.AND)` loop of `logic_and`, with the
source's recursive `self.logic_and()` for the right operand. -/
def logicAndLoop : Nat → Expr → PState → Except PSig (Expr × PState)
  | 0, _, _ => .error .fuelOut
  | fuel + 1, expr, p =>
    let m := p.matchT [.AND]
    if m.1 then
      let op := m.2.previous
      match logic_and fuel m.2 with
      | .error e => .error e
      | .ok (right, p1) => logicAndLoop fuel (.logical expr op right) p1
    else .ok (expr, p)

/-- parser.py `equality`. -/
def equality : Nat → PState → Except PSig (Expr × PState)
  | 0, _ => .error .fuelOut
  | fuel + 1, p =>
    match comparison fuel p with
    | .error e => .error e
    | .ok (expr, p1) => equalityLoop fuel expr p1

/-- The binary-operator loop of `equality`. -/
def equalityLoop : Nat → Expr → PState → Except PSig (Expr × PState)
  | 0, _, _ => .error .fuelOut
  | fuel + 1, expr, p =>
    let m := p.matchT [.BANG_EQUAL, .EQUAL_EQUAL]
    if m.1 then
      let op := m.2.previous
      match comparison fuel m.2 with
      | .error e => .error e
      | .ok (right, p1) => equalityLoop fuel (.binary expr op right) p1
    else .ok (expr, p)

/-- parser.py `comparison`. -/
def comparison : Nat → PState → Except PSig (Expr × PState)
  | 0, _ => .error .fuelOut
  | fuel + 1, p =>
    match term fuel p with
    | .error e => .error e
    | .ok (expr, p1) => comparisonLoop fuel expr p1

/-- The binary-operator loop of `comparison`. -/
def comparisonLoop : Nat → Expr → PState → Except PSig (Expr × PState)
  | 0, _, _ => .error .fuelOut
  | fuel + 1, expr, p =>
    let m := p.matchT [.GREATER, .GREATER_EQUAL, .LESS, .LESS_EQUAL]
    if m.1 then
      let op := m.2.previous
      match term fuel m.2 with
      | .error e => .error e
      | .ok (right, p1) => comparisonLoop fuel (.binary expr op right) p1
    else .ok (expr, p)

/-- parser.py `term`. -/
def term : Nat → PState → Except PSig (Expr × PState)
  | 0, _ => .error .fuelOut
  | fuel + 1, p =>
    match factor fuel p with
    | .error e => .error e
    | .ok (expr, p1) => termLoop fuel expr p1

/-- The binary-operator loop of `term`. -/
def termLoop : Nat → Expr → PState → Except PSig (Expr × PState)
  | 0, _, _ => .error .fuelOut
  | fuel + 1, expr, p =>
    let m := p.matchT [.MINUS, .PLUS]
    if m.1 then
      let op := m.2.previous
      match factor fuel m.2 with
      | .error e => .error e
      | .ok (right, p1) => termLoop fuel (.binary expr op right) p1
    else .ok (expr, p)

/-- parser.py `factor`. -/
def factor : Nat → PState → Except PSig (Expr × PState)
  | 0, _ => .error .fuelOut
  | fuel + 1, p =>
    match unary fuel p with
    | .error e => .error e
    | .ok (expr, p1) => factorLoop fuel expr p1

/-- The binary-operator loop of `factor`. -/
def factorLoop : Nat → Expr → PState → Except PSig (Expr × PState)
  | 0, _, _ => .error .fuelOut
  | fuel + 1, expr, p =>
    let m := p.matchT [.SLASH, .STAR]
    if m.1 then
      let op := m.2.previous
      match unary fuel m.2 with
      | .error e => .error e
      | .ok (right, p1) => factorLoop fuel (.binary expr op right) p1
    else .ok (expr, p)

/-- parser.py `unary`. -/
def unary : Nat → PState → Except PSig (Expr × PState)
  | 0, _ => .error .fuelOut
  | fuel + 1, p =>
    let m := p.matchT [.BANG, .MINUS]
    if m.1 then
      let op := m.2.previous
      match unary fuel m.2 with
      | .error e => .error e
      | .ok (right, p1) => .ok (.unary op right, p1)
    else call fuel p

/-- parser.py `call`. -/
def call : Nat → PState → Except PSig (Expr × PState)
  | 0, _ => .error .fuelOut
  | fuel + 1, p =>
    match primary fuel p with
    | .error e => .error e
    | .ok (expr, p1) => callLoop fuel expr p1

/-- The `while True` postfix loop of `call`: call parentheses and property
accesses. -/
def callLoop : Nat → Expr → PState → Except PSig (Expr × PState)
  | 0, _, _ => .error .fuelOut
  | fuel + 1, expr, p =>
    let m := p.matchT [.LEFT_PAREN]
    if m.1 then
      match finish_call fuel expr m.2 with
      | .error e => .error e
      | .ok (e2, p1) => callLoop fuel e2 p1
    else
      let m2 := p.matchT [.DOT]
      if m2.1 then
        match consume m2.2 .IDENTIFIER "Expect property name after '.'." with
        | .error e => .error e
        | .ok (name, p1) => callLoop fuel (.get expr name) p1
      else .ok (expr, p)

/-- parser.py `finish_call`. -/
def finish_call : Nat → Expr → PState → Except PSig (Expr × PState)
  | 0, _, _ => .error .fuelOut
  | fuel + 1, callee, p =>
    if !(p.check [.RIGHT_PAREN]) then
      match expression fuel p with
      | .error e => .error e
      | .ok (a, p1) =>
        match argsLoop fuel [a] p1 with
        | .error e => .error e
        | .ok (args, p2) =>
          match consume p2 .RIGHT_PAREN "Expect ')' after arguments." with
          | .error e => .error e
          | .ok (paren, p3) => .ok (.call callee paren args, p3)
    else
      match consume p .RIGHT_PAREN "Expect ')' after arguments." with
      | .error e => .error e
      | .ok (paren, p1) => .ok (.call callee paren [], p1)

/-- The `while self.match(TokenType.COMMA)` loop of `finish_call`.  In this
source, exceeding 255 arguments raises the parse error (`Parser.error`
raises after reporting). -/
def argsLoop : Nat → List Expr → PState → Except PSig (List Expr × PState)
  | 0, _, _ => .error .fuelOut
  | fuel + 1, args, p =>
    let m := p.matchT [.COMMA]
    if m.1 then
      if 255 ≤ args.length then
        .error (.perr m.2.peek "Can't have more than 255 arguments.")
      else
        match expression fuel m.2 with
        | .error e => .error e
        | .ok (a, p1) => argsLoop fuel (args ++ [a]) p1
    else .ok (args, p)

/-- parser.py `primary`. -/
def primary : Nat → PState → Except PSig (Expr × PState)
  | 0, _ => .error .fuelOut
  | fuel + 1, p =>
    let m1 := p.matchT [.FALSE]
    if m1.1 then .ok (.literal (.bool false), m1.2)
    else
      let m2 := p.matchT [.TRUE]
      if m2.1 then .ok (.literal (.bool true), m2.2)
      else
        let m3 := p.matchT [.NIL]
        if m3.1 then .ok (.literal .nil, m3.2)
        else
          let m4 := p.matchT [.NUMBER, .STRING]
          if m4.1 then .ok (.literal (litOfToken m4.2.previous.literal), m4.2)
          else
            let m5 := p.matchT [.LEFT_PAREN]
            if m5.1 then
              match expression fuel m5.2 with
              | .error e => .error e
              | .ok (expr, p1) =>
                match consume p1 .RIGHT_PAREN "Expect ')' after expression." with
                | .error e => .error e
                | .ok (_, p2) => .ok (.grouping expr, p2)
            else
              let m6 := p.matchT [.THIS]
              if m6.1 then
                let f := m6.2.freshId
                .ok (.this f.1 f.2.previous, f.2)
              else
                let m7 := p.matchT [.IDENTIFIER]
                if m7.1 then
                  let f := m7.2.freshId
                  .ok (.var f.1 f.2.previous, f.2)
                else .error (.perr p.peek "Expect expression.")

end

end Parser

/-! ### The `and` chain parse (claim C5) -/

/-- The token `true` on line 1, as produced by the scanner. -/
def trueTok : Token := ⟨.TRUE, "true", none, 1⟩

/-- The token `and` on line 1, as produced by the scanner. -/
def andTok : Token := ⟨.AND, "and", none, 1⟩

/-- The scanner output for the source `true and true and true`. -/
def andChainTokens : List Token :=
  [trueTok, andTok, trueTok, andTok, trueTok, ⟨.EOF, "", none, 1⟩]

/-- The right-associative tree the parser actually produces for
`e1 and e2 and e3`. -/
def andChainRight : Expr :=
  .logical (.literal (.bool true)) andTok
    (.logical (.literal (.bool true)) andTok (.literal (.bool true)))

/-- The left-associative tree the grammar comment
`logic_and → equality ( "and" equality )*` prescribes. -/
def andChainLeft : Expr :=
  .logical (.logical (.literal (.bool true)) andTok (.literal (.bool true)))
    andTok (.literal (.bool true))

/-- C5 (refutation): parsing `true and true and true` yields the
right-associative tree `Logical(e1, and, Logical(e2, and, e3))` — the right
operand of the outer `and` is itself a bare `and` expression — because
`Parser.logic_and` parses the right operand with a recursive
`self.logic_and()` call instead of `equality`; in particular the result is
not the left-associative tree the claim (and the source's own grammar
comment) prescribes. -/
theorem c5_and_chain_parses_right_associated :
    Parser.expression 20 ⟨andChainTokens, 0, 0⟩ =
      .ok (andChainRight, ⟨andChainTokens, 5, 0⟩) ∧
    andChainRight ≠ andChainLeft := by
  constructor
  · rfl
  · simp [andChainRight, andChainLeft]

/-! ## Runtime values

interpreter.py represents Lox values by host values: `None`, `bool`,
`float` (modelled as `ℚ`), `str`, `Clock`, `LoxFunction`, `LoxClass`,
`LoxInstance`.  Instances are mutable and compared by identity, so they live
in a store and are represented by their index. -/

/-- loxfunction.py `LoxFunction`: declaration, captured closure environment
(a store index), and the initializer flag. -/
structure LoxFunctionV where
  declaration : FunctionDecl
  closure : Nat
  is_initializer : Bool

/-- loxclass.py `LoxClass`: name and method table. -/
structure LoxClassV where
  name : String
  methods : List (String × LoxFunctionV)

inductive Value where
  | nil
  | bool (b : Bool)
  | num (q : ℚ)
  | str (s : String)
  | clock
  | fn (f : LoxFunctionV)
  | cls (c : LoxClassV)
  | inst (id : Nat)

/-- First-match lookup in a Python dict modelled as an association list with
unique keys. -/
def dictGet {α : Type} (m : List (String × α)) (k : String) : Option α :=
  match m with
  | [] => none
  | (k', v) :: rest => if k' == k then some v else dictGet rest k

/-- Python dict assignment `m[k] = v`: overwrite in place, else append
(insertion order preserved). -/
def dictSet {α : Type} (m : List (String × α)) (k : String) (v : α) :
    List (String × α) :=
  match m with
  | [] => [(k, v)]
  | (k', v') :: rest => if k' == k then (k', v) :: rest else (k', v') :: dictSet rest k v

/-- Python `==` on runtime values, as invoked by `Interpreter.is_equal`'s
final `a == b`: cross-type numeric equality between `bool` and `float`
(`True == 1.0` is `True` in the host), float and string equality by value,
`None` unequal to non-`None`.  Callables: Python compares `LoxFunction`
objects by identity and `LoxClass` dataclasses structurally over a dict
whose values are again identity-compared functions; object identity for
these immutable values is not represented in this embedding, so both cases
are conservatively modelled as never equal — no claim depends on them. -/
def pyEq : Value → Value → Bool
  | .nil, .nil => true
  | .bool a, .bool b => a == b
  | .bool a, .num q => (if a then (1 : ℚ) else 0) == q
  | .num q, .bool a => q == (if a then (1 : ℚ) else 0)
  | .num a, .num b => a == b
  | .str a, .str b => a == b
  | .inst i, .inst j => i == j
  | _, _ => false

/-- interpreter.py `Interpreter.is_equal` (identical to expr.py
`is_equal`): `nil` equals only `nil`; otherwise the host `==`. -/
def is_equal (a b : Value) : Bool :=
  match a with
  | .nil => match b with
    | .nil => true
    | _ => false
  | _ => pyEq a b

/-- interpreter.py `Interpreter.is_truthy`: `nil` and `false` are falsey,
everything else truthy. -/
def is_truthy (v : Value) : Bool :=
  match v with
  | .nil => false
  | .bool b => b
  | _ => true

/-! ## Environment (environment.py), as the self-recursive object

environment.py's `Environment` is a values dict plus an optional enclosing
environment.  This direct recursive model backs the claims about `get` and
`get_at` in isolation; the evaluator further below uses the store-indexed
rendering of the same class so that environments can be shared and
mutated. -/

/-- environment.py `LoxRuntimeError` payload raised by `get`/`assign`. -/
structure LoxRuntimeError where
  token : Token
  message : String

inductive Environment where
  | mk (values : List (String × Value)) (enclosing : Option Environment)

def Environment.values : Environment → List (String × Value)
  | .mk v _ => v

def Environment.enclosing : Environment → Option Environment
  | .mk _ e => e

/-- Number of environments in the chain (the environment itself plus its
enclosing ones). -/
def Environment.depth : Environment → Nat
  | .mk _ none => 1
  | .mk _ (some e) => 1 + e.depth

/-- environment.py `Environment.get`: own map first, then the enclosing
chain, else the runtime error (whose message spells "Undefinied", as in the
source). -/
def Environment.get : Environment → Token → Except LoxRuntimeError Value
  | .mk values enclosing, name =>
    match dictGet values name.lexeme with
    | some v => .ok v
    | none =>
      match enclosing with
      | some e => e.get name
      | none => .error ⟨name, "Undefinied variable '" ++ name.lexeme ++ "'."⟩

/-- environment.py `Environment.assign`: update here if present, else
delegate, else error (spelled "Undefined" here, unlike `get`). -/
def Environment.assign : Environment → Token → Value → Except LoxRuntimeError Environment
  | .mk values enclosing, name, value =>
    if (dictGet values name.lexeme).isSome then
      .ok (.mk (dictSet values name.lexeme value) enclosing)
    else
      match enclosing with
      | some e =>
        match e.assign name value with
        | .ok e' => .ok (.mk values (some e'))
        | .error err => .error err
      | none => .error ⟨name, "Undefined variable '" ++ name.lexeme ++ "'."⟩

/-- environment.py `Environment.ancestor`: walk exactly `distance` enclosing
links.  Walking past the global environment dereferences `None` in Python
(an `AttributeError`, either inside the loop or at the caller's `.values`);
both host failures are the `none` result here. -/
def Environment.ancestor : Environment → Nat → Option Environment
  | e, 0 => some e
  | e, d + 1 =>
    match e.enclosing with
    | some e' => e'.ancestor d
    | none => none

/-- environment.py `Environment.get_at`:
`self.ancestor(distance).values.get(name)` — a plain `dict.get`, whose
absent-key default `None` is the Lox `nil` value. -/
def Environment.get_at (e : Environment) (distance : Nat) (name : String) :
    Option Value :=
  (e.ancestor distance).map (fun en => (dictGet en.values name).getD Value.nil)

theorem ancestor_isSome :
    ∀ (d : Nat) (e : Environment), d < e.depth → (e.ancestor d).isSome = true := by
  intro d
  induction d with
  | zero => intro e _; rfl
  | succ n ih =>
    intro e h
    match e with
    | .mk v none =>
      rw [Environment.depth] at h
      omega
    | .mk v (some e') =>
      rw [Environment.depth] at h
      exact ih e' (by omega)

/-- C9: on an environment chain with at least `distance + 1` environments,
`get_at` never raises a Lox runtime error: it returns a value read from the
map of the environment exactly `distance` links up, and an absent name
yields `nil` (the absent-value default) instead of an undefined-variable
error. -/
theorem c9_get_at_total_reads_target_only (e : Environment) (d : Nat)
    (name : String) (h : d < e.depth) :
    (e.get_at d name).isSome = true ∧
    (∀ en, e.ancestor d = some en →
      e.get_at d name = some ((dictGet en.values name).getD Value.nil)) := by
  constructor
  · have ha := ancestor_isSome d e h
    rw [Environment.get_at]
    cases hx : e.ancestor d with
    | none => rw [hx] at ha; exact absurd ha (by decide)
    | some en => rfl
  · intro en hen
    rw [Environment.get_at, hen]
    rfl

/-- A two-environment chain for the C9 witness: the inner environment's map
is empty, the global one binds `x`. -/
def c9Chain : Environment :=
  .mk [] (some (.mk [("x", Value.num 7)] none))

/-- Witness for C9 at a concrete chain: reading `x` at distance 0 of a chain
whose inner map lacks `x` succeeds and silently yields `nil`, even though an
enclosing environment binds `x`. -/
theorem c9_get_at_total_reads_target_only_witness :
    (c9Chain.get_at 0 "x").isSome = true ∧
    c9Chain.get_at 0 "x" = some Value.nil :=
  ⟨(c9_get_at_total_reads_target_only c9Chain 0 "x" (by decide)).1,
   (c9_get_at_total_reads_target_only c9Chain 0 "x" (by decide)).2 c9Chain rfl⟩

/-- The identifier token `x` on line 1. -/
def xTok : Token := ⟨.IDENTIFIER, "x", none, 1⟩

/-- C6 (refutation): looking `x` up in an environment chain that binds it
nowhere raises the runtime error carrying the token, but its message is the
misspelled "Undefinied variable 'x'." of the source, not the claimed
"Undefined variable 'x'." — while the sibling `assign` spells it
correctly. -/
theorem c6_get_error_message_misspelled :
    Environment.get (.mk [] none) xTok =
      .error ⟨xTok, "Undefinied variable 'x'."⟩ ∧
    "Undefinied variable 'x'." ≠ "Undefined variable 'x'." :=
  ⟨rfl, by decide⟩

/-! ## The evaluator (interpreter.py)

Environments and instances are mutable shared objects; they live in stores
indexed by creation order, and Python object identity is index equality.
The interpreter state carries the stores, the `globals`/`environment`
pointers, the resolution table `locals` (keyed by AST node identity), the
text printed so far, and the value the `clock` native returns (host
wall-clock time, opaque to the program). -/

/-- An environment record in the store: its dict and optional enclosing
environment (by store index). -/
structure EnvData where
  values : List (String × Value)
  enclosing : Option Nat

/-- A loxinstance.py `LoxInstance` record: its class and mutable field
dict. -/
structure InstData where
  klass : LoxClassV
  fields : List (String × Value)

/-- The interpreter state (interpreter.py `Interpreter` fields plus the
object stores and the output channel). -/
structure St where
  envs : List EnvData
  insts : List InstData
  globals : Nat
  environment : Nat
  locals : List (Nat × Nat)
  output : List String
  clockTime : ℚ

/-- Exceptional unwinding: `LoxRuntimeError`, `ReturnException`, a host
(Python-level) exception such as `AttributeError`, or exhaustion of the
modelling fuel. -/
inductive Signal where
  | rtError (token : Token) (message : String)
  | ret (value : Value)
  | hostError (message : String)
  | fuelOut

namespace St

/-- Read an environment record (indices handed out by `newEnv` are always in
range). -/
def envGet (st : St) (i : Nat) : EnvData := st.envs.getD i ⟨[], none⟩

/-- Allocate a fresh `Environment(enclosing)`: returns its identity. -/
def newEnv (st : St) (enclosing : Option Nat) : Nat × St :=
  (st.envs.length, { st with envs := st.envs ++ [⟨[], enclosing⟩] })

/-- environment.py `define` on the store: unconditional dict set. -/
def envDefine (st : St) (i : Nat) (name : String) (v : Value) : St :=
  { st with envs := st.envs.set i ⟨dictSet (st.envGet i).values name v, (st.envGet i).enclosing⟩ }

/-- Read an instance record. -/
def instGet (st : St) (i : Nat) : InstData := st.insts.getD i ⟨⟨"", []⟩, []⟩

/-- Allocate a fresh `LoxInstance(klass)`. -/
def newInst (st : St) (klass : LoxClassV) : Nat × St :=
  (st.insts.length, { st with insts := st.insts ++ [⟨klass, []⟩] })

/-- loxinstance.py `set`: write a field. -/
def instSet (st : St) (i : Nat) (name : String) (v : Value) : St :=
  { st with insts := st.insts.set i ⟨(st.instGet i).klass, dictSet (st.instGet i).fields name v⟩ }

end St

/-- environment.py `get` on the store: recursion along the enclosing chain.
The chain in every reachable state is acyclic (each environment encloses an
older one), so the fuel `st.envs.length + 1` used at call sites always
suffices; the fuel-out case is unreachable there. -/
def stGetWalk : Nat → St → Nat → Token → Except Signal Value
  | 0, _, _, _ => .error (.hostError "environment chain cycle")
  | fuel + 1, st, i, name =>
    match dictGet (st.envGet i).values name.lexeme with
    | some v => .ok v
    | none =>
      match (st.envGet i).enclosing with
      | some j => stGetWalk fuel st j name
      | none => .error (.rtError name ("Undefinied variable '" ++ name.lexeme ++ "'."))

/-- environment.py `assign` on the store: update the innermost binding, else
the runtime error (spelled "Undefined" in `assign`). -/
def stAssignWalk : Nat → St → Nat → Token → Value → Except Signal St
  | 0, _, _, _, _ => .error (.hostError "environment chain cycle")
  | fuel + 1, st, i, name, v =>
    if (dictGet (st.envGet i).values name.lexeme).isSome then
      .ok (st.envDefine i name.lexeme v)
    else
      match (st.envGet i).enclosing with
      | some j => stAssignWalk fuel st j name v
      | none => .error (.rtError name ("Undefined variable '" ++ name.lexeme ++ "'."))

/-- environment.py `ancestor` on the store (see `Environment.ancestor` for
the treatment of walking past the global environment). -/
def stAncestor (st : St) : Nat → Nat → Option Nat
  | i, 0 => some i
  | i, d + 1 =>
    match (st.envGet i).enclosing with
    | some j => stAncestor st j d
    | none => none

/-- environment.py `get_at` on the store. -/
def stGetAt (st : St) (i : Nat) (d : Nat) (name : String) : Option Value :=
  (stAncestor st i d).map (fun j => (dictGet (st.envGet j).values name).getD Value.nil)

/-- environment.py `assign_at` on the store. -/
def stAssignAt (st : St) (i : Nat) (d : Nat) (name : Token) (v : Value) : Option St :=
  (stAncestor st i d).map (fun j => st.envDefine j name.lexeme v)

/-- interpreter.py `look_up_variable`: the resolution table decides between
the distance-indexed read and the global walking read.  A `get_at` past the
end of the chain is the host `AttributeError`. -/
def look_up_variable (st : St) (id : Nat) (name : Token) : Except Signal Value :=
  match dictGetNat st.locals id with
  | some d =>
    match stGetAt st st.environment d name.lexeme with
    | some v => .ok v
    | none => .error (.hostError "AttributeError: 'NoneType' object has no attribute 'enclosing'")
  | none => stGetWalk (st.envs.length + 1) st st.globals name
where
  /-- `self.locals.get(expr)`: lookup keyed by AST node identity. -/
  dictGetNat : List (Nat × Nat) → Nat → Option Nat
    | [], _ => none
    | (k, v) :: rest, i => if k == i then some v else dictGetNat rest i

/-- Host float-to-string: Python's `str` of a double renders integral values
with a trailing `".0"`; that suffix is the only aspect `stringfy` inspects.
Non-integral values are rendered as exact rationals (no claim exercises
them; the host's shortest-roundtrip decimal rendering is not modelled). -/
def pyFloatRepr (q : ℚ) : String :=
  if q.den = 1 then toString q.num ++ ".0" else toString q

/-- Python `str()` of a runtime value: host rendering for `None`/bools and
floats, `__str__` of Clock (`<native fn>`), LoxFunction (`<fn name>`),
LoxClass (the name) and LoxInstance (`<class name> instance`). -/
def pyStr (st : St) (v : Value) : String :=
  match v with
  | .nil => "None"
  | .bool true => "True"
  | .bool false => "False"
  | .num q => pyFloatRepr q
  | .str s => s
  | .clock => "<native fn>"
  | .fn f => "<fn " ++ f.declaration.name.lexeme ++ ">"
  | .cls c => c.name
  | .inst i => (st.instGet i).klass.name ++ " instance"

/-- interpreter.py `Interpreter.stringfy`: `nil` for `None`; for floats,
trim a trailing `".0"`; otherwise the host `str()` — in particular booleans
reach the final `str(obj)` and render as `"True"`/`"False"`. -/
def stringfy (st : St) (v : Value) : String :=
  match v with
  | .nil => "nil"
  | .num q =>
    let text := pyFloatRepr q
    if text.endsWith ".0" then text.dropRight 2 else pyStr st (.num q)
  | v => pyStr st v

/-- loxfunction.py `bind`: a fresh environment enclosing the method's
closure, holding `this`, and a new function object over it. -/
def loxFunctionBind (f : LoxFunctionV) (instId : Nat) (st : St) :
    LoxFunctionV × St :=
  let n := st.newEnv (some f.closure)
  let st2 := n.2.envDefine n.1 "this" (Value.inst instId)
  (⟨f.declaration, n.1, f.is_initializer⟩, st2)

/-- loxinstance.py `get`: own field, else a method bound to the instance,
else `Undefined property 'x'.`. -/
def instanceGet (st : St) (i : Nat) (name : Token) :
    Except Signal Value × St :=
  match dictGet (st.instGet i).fields name.lexeme with
  | some v => (.ok v, st)
  | none =>
    match dictGet (st.instGet i).klass.methods name.lexeme with
    | some m =>
      let b := loxFunctionBind m i st
      (.ok (.fn b.1), b.2)
    | none =>
      (.error (.rtError name ("Undefined property '" ++ name.lexeme ++ "'.")), st)

/-- `LoxFunction.__init__` zip binding of parameters to arguments (Python
`zip` truncates to the shorter list; `evaluate_call` has already checked the
arity when calls go through the evaluator). -/
def defineParams : List Token → List Value → Nat → St → St
  | p :: ps, a :: as_, envId, st => defineParams ps as_ envId (st.envDefine envId p.lexeme a)
  | _, _, _, st => st

/-- loxcallable-style dispatch test (`isinstance(callee, LoxCallable)`):
functions, classes and the clock native are callable. -/
def isCallable : Value → Bool
  | .fn _ => true
  | .cls _ => true
  | .clock => true
  | _ => false

/-- `arity()`: parameter count for functions, the initializer's arity (or 0)
for classes, 0 for `clock`. -/
def arity : Value → Nat
  | .fn f => f.declaration.params.length
  | .cls c =>
    match dictGet c.methods "init" with
    | some m => m.declaration.params.length
    | none => 0
  | _ => 0

/-- The operator dispatch of interpreter.py `evaluate_binary`, applied to
the two evaluated operands.  The comparison/arithmetic cases inline
`check_number_operands` (whose message is the source's singular "Operand
must be a number.").  The `+` mismatch arm faithfully reproduces the
source's `raise LoxRuntimeError(self.operator, ...)`: `self` there is the
`Interpreter`, which has no `operator` attribute, so the host raises
`AttributeError` before any `LoxRuntimeError` exists.  `/` by zero is the
host's `ZeroDivisionError` (Python floats raise, they do not produce
infinities).  Operator kinds outside the match fall through to `None`. -/
def evaluate_binary_op (op : Token) (left right : Value) : Except Signal Value :=
  match op.type with
  | .GREATER =>
    match left, right with
    | .num a, .num b => .ok (.bool (decide (a > b)))
    | _, _ => .error (.rtError op "Operand must be a number.")
  | .GREATER_EQUAL =>
    match left, right with
    | .num a, .num b => .ok (.bool (decide (a ≥ b)))
    | _, _ => .error (.rtError op "Operand must be a number.")
  | .LESS =>
    match left, right with
    | .num a, .num b => .ok (.bool (decide (a < b)))
    | _, _ => .error (.rtError op "Operand must be a number.")
  | .LESS_EQUAL =>
    match left, right with
    | .num a, .num b => .ok (.bool (decide (a ≤ b)))
    | _, _ => .error (.rtError op "Operand must be a number.")
  | .MINUS =>
    match left, right with
    | .num a, .num b => .ok (.num (a - b))
    | _, _ => .error (.rtError op "Operand must be a number.")
  | .PLUS =>
    match left, right with
    | .num a, .num b => .ok (.num (a + b))
    | .str a, .str b => .ok (.str (a ++ b))
    | _, _ => .error (.hostError "AttributeError: 'Interpreter' object has no attribute 'operator'")
  | .SLASH =>
    match left, right with
    | .num a, .num b =>
      if b == 0 then .error (.hostError "ZeroDivisionError: float division by zero")
      else .ok (.num (a / b))
    | _, _ => .error (.rtError op "Operand must be a number.")
  | .STAR =>
    match left, right with
    | .num a, .num b => .ok (.num (a * b))
    | _, _ => .error (.rtError op "Operand must be a number.")
  | .BANG_EQUAL => .ok (.bool (!is_equal left right))
  | .EQUAL_EQUAL => .ok (.bool (is_equal left right))
  | _ => .ok .nil

/-- The operator dispatch of interpreter.py `evaluate_unary` (with
`check_number_operand`); kinds outside the match fall through to `None`. -/
def evaluate_unary_op (op : Token) (right : Value) : Except Signal Value :=
  match op.type with
  | .BANG => .ok (.bool (!is_truthy right))
  | .MINUS =>
    match right with
    | .num a => .ok (.num (-a))
    | _ => .error (.rtError op "Operand must be a number.")
  | _ => .ok .nil

/-- The method-table construction loop of interpreter.py `execute_class`:
each method closes over the current environment, `is_initializer` iff it is
named `init`. -/
def buildMethods (ms : List FunctionDecl) (envId : Nat) : List (String × LoxFunctionV) :=
  ms.foldl (fun acc m => dictSet acc m.name.lexeme ⟨m, envId, m.name.lexeme == "init"⟩) []

mutual

/-- interpreter.py `Interpreter.execute`: statement dispatch. -/
def execute : Nat → Stmt → St → Except Signal Unit × St
  | 0, _, st => (.error .fuelOut, st)
  | fuel + 1, stmt, st =>
    match stmt with
    | .expression e =>
      let r := evaluate fuel e st
      match r.1 with
      | .ok _ => (.ok (), r.2)
      | .error s => (.error s, r.2)
    | .print e =>
      let r := evaluate fuel e st
      match r.1 with
      | .ok v => (.ok (), { r.2 with output := r.2.output ++ [stringfy r.2 v] })
      | .error s => (.error s, r.2)
    | .var name init =>
      match init with
      | none => (.ok (), st.envDefine st.environment name.lexeme Value.nil)
      | some e =>
        let r := evaluate fuel e st
        match r.1 with
        | .ok v => (.ok (), r.2.envDefine r.2.environment name.lexeme v)
        | .error s => (.error s, r.2)
    | .block stmts =>
      let n := st.newEnv (some st.environment)
      execute_block fuel stmts n.1 n.2
    | .ifStmt c t e =>
      let r := evaluate fuel c st
      match r.1 with
      | .error s => (.error s, r.2)
      | .ok v =>
        if is_truthy v then execute fuel t r.2
        else
          match e with
          | some el => execute fuel el r.2
          | none => (.ok (), r.2)
    | .whileStmt c b =>
      let r := evaluate fuel c st
      match r.1 with
      | .error s => (.error s, r.2)
      | .ok v =>
        if is_truthy v then
          let r2 := execute fuel b r.2
          match r2.1 with
          | .ok _ => execute fuel (.whileStmt c b) r2.2
          | .error s => (.error s, r2.2)
        else (.ok (), r.2)
    | .function decl =>
      (.ok (), st.envDefine st.environment decl.name.lexeme
        (.fn ⟨decl, st.environment, false⟩))
    | .returnStmt _ value =>
      match value with
      | none => (.error (.ret Value.nil), st)
      | some e =>
        let r := evaluate fuel e st
        match r.1 with
        | .ok v => (.error (.ret v), r.2)
        | .error s => (.error s, r.2)
    | .classStmt name methods =>
      let st1 := st.envDefine st.environment name.lexeme Value.nil
      let klass : LoxClassV := ⟨name.lexeme, buildMethods methods st1.environment⟩
      match stAssignWalk (st1.envs.length + 1) st1 st1.environment name (.cls klass) with
      | .ok st2 => (.ok (), st2)
      | .error s => (.error s, st1)

/-- interpreter.py `Interpreter.execute_block`: save the current
environment, run the statements in the given one, and restore the saved
environment on every exit path (the `finally` clause). -/
def execute_block : Nat → List Stmt → Nat → St → Except Signal Unit × St
  | 0, _, _, st => (.error .fuelOut, st)
  | fuel + 1, stmts, envId, st =>
    let r := executeSeq fuel stmts { st with environment := envId }
    (r.1, { r.2 with environment := st.environment })

/-- The statement loop shared by `interpret` and `execute_block`: execute in
order, propagating the first signal. -/
def executeSeq : Nat → List Stmt → St → Except Signal Unit × St
  | 0, _, st => (.error .fuelOut, st)
  | _ + 1, [], st => (.ok (), st)
  | fuel + 1, s :: rest, st =>
    let r := execute fuel s st
    match r.1 with
    | .ok _ => executeSeq fuel rest r.2
    | .error sg => (.error sg, r.2)

/-- interpreter.py `Interpreter.evaluate`: expression dispatch. -/
def evaluate : Nat → Expr → St → Except Signal Value × St
  | 0, _, st => (.error .fuelOut, st)
  | fuel + 1, expr, st =>
    match expr with
    | .binary l op r =>
      let rl := evaluate fuel l st
      match rl.1 with
      | .error s => (.error s, rl.2)
      | .ok lv =>
        let rr := evaluate fuel r rl.2
        match rr.1 with
        | .error s => (.error s, rr.2)
        | .ok rv => (evaluate_binary_op op lv rv, rr.2)
    | .grouping e => evaluate fuel e st
    | .literal v =>
      (.ok (match v with
            | .nil => .nil
            | .bool b => .bool b
            | .num q => .num q
            | .str s => .str s), st)
    | .unary op r =>
      let rr := evaluate fuel r st
      match rr.1 with
      | .error s => (.error s, rr.2)
      | .ok rv => (evaluate_unary_op op rv, rr.2)
    | .var id name => (look_up_variable st id name, st)
    | .assign id name e =>
      let rv := evaluate fuel e st
      match rv.1 with
      | .error s => (.error s, rv.2)
      | .ok v =>
        match look_up_variable.dictGetNat rv.2.locals id with
        | some d =>
          match stAssignAt rv.2 rv.2.environment d name v with
          | some st2 => (.ok Value.nil, st2)
          | none =>
            (.error (.hostError "AttributeError: 'NoneType' object has no attribute 'enclosing'"), rv.2)
        | none =>
          match stAssignWalk (rv.2.envs.length + 1) rv.2 rv.2.globals name v with
          | .ok st2 => (.ok Value.nil, st2)
          | .error s => (.error s, rv.2)
    | .logical l op r =>
      let rl := evaluate fuel l st
      match rl.1 with
      | .error s => (.error s, rl.2)
      | .ok lv =>
        if op.type == .OR then
          if is_truthy lv then (.ok lv, rl.2) else evaluate fuel r rl.2
        else
          if !is_truthy lv then (.ok lv, rl.2) else evaluate fuel r rl.2
    | .call callee paren args =>
      let rc := evaluate fuel callee st
      match rc.1 with
      | .error s => (.error s, rc.2)
      | .ok cv =>
        let ra := evalArgs fuel args rc.2
        match ra.1 with
        | .error s => (.error s, ra.2)
        | .ok avs =>
          if !isCallable cv then
            (.error (.rtError paren "Can only call functions and classes."), ra.2)
          else if avs.length ≠ arity cv then
            (.error (.rtError paren
              ("Expected " ++ toString (arity cv) ++ " arguments but got " ++
                toString avs.length ++ ".")), ra.2)
          else callValue fuel cv avs ra.2
    | .get obj name =>
      let ro := evaluate fuel obj st
      match ro.1 with
      | .error s => (.error s, ro.2)
      | .ok ov =>
        match ov with
        | .inst i => instanceGet ro.2 i name
        | _ => (.error (.rtError name "Only instances have properties."), ro.2)
    | .set obj name e =>
      let ro := evaluate fuel obj st
      match ro.1 with
      | .error s => (.error s, ro.2)
      | .ok ov =>
        match ov with
        | .inst i =>
          let rv := evaluate fuel e ro.2
          match rv.1 with
          | .error s => (.error s, rv.2)
          | .ok v => (.ok v, rv.2.instSet i name.lexeme v)
        | _ => (.error (.rtError name "Only instances have fields."), ro.2)
    | .this id keyword => (look_up_variable st id keyword, st)

/-- The argument loop of `evaluate_call`: evaluate left to right. -/
def evalArgs : Nat → List Expr → St → Except Signal (List Value) × St
  | 0, _, st => (.error .fuelOut, st)
  | _ + 1, [], st => (.ok [], st)
  | fuel + 1, e :: rest, st =>
    let r := evaluate fuel e st
    match r.1 with
    | .error s => (.error s, r.2)
    | .ok v =>
      let rr := evalArgs fuel rest r.2
      match rr.1 with
      | .error s => (.error s, rr.2)
      | .ok vs => (.ok (v :: vs), rr.2)

/-- `callee.call(self, arguments)` dispatch: user function, class
constructor, or the `clock` native (which returns the host wall-clock
time). -/
def callValue : Nat → Value → List Value → St → Except Signal Value × St
  | 0, _, _, st => (.error .fuelOut, st)
  | fuel + 1, .fn f, args, st => loxFunctionCall fuel f args st
  | fuel + 1, .cls c, args, st => loxClassCall fuel c args st
  | _ + 1, .clock, _, st => (.ok (.num st.clockTime), st)
  | _ + 1, _, _, st => (.error (.hostError "not callable"), st)

/-- loxfunction.py `LoxFunction.call`: fresh environment over the closure,
bind parameters, run the body; a propagating `ReturnException` is caught
here; initializers yield the closure's slot-0 `this` whether the body
returned or completed. -/
def loxFunctionCall : Nat → LoxFunctionV → List Value → St → Except Signal Value × St
  | 0, _, _, st => (.error .fuelOut, st)
  | fuel + 1, f, args, st =>
    let n := st.newEnv (some f.closure)
    let st2 := defineParams f.declaration.params args n.1 n.2
    let r := execute_block fuel f.declaration.body n.1 st2
    match r.1 with
    | .error (.ret v) =>
      if f.is_initializer then
        match stGetAt r.2 f.closure 0 "this" with
        | some tv => (.ok tv, r.2)
        | none => (.error (.hostError "unreachable: ancestor 0 is the closure itself"), r.2)
      else (.ok v, r.2)
    | .ok _ =>
      if f.is_initializer then
        match stGetAt r.2 f.closure 0 "this" with
        | some tv => (.ok tv, r.2)
        | none => (.error (.hostError "unreachable: ancestor 0 is the closure itself"), r.2)
      else (.ok Value.nil, r.2)
    | .error s => (.error s, r.2)

/-- loxclass.py `LoxClass.call`: construct the instance; if an `init` method
exists, bind and invoke it (its exceptions propagate); return the
instance. -/
def loxClassCall : Nat → LoxClassV → List Value → St → Except Signal Value × St
  | 0, _, _, st => (.error .fuelOut, st)
  | fuel + 1, c, args, st =>
    let n := st.newInst c
    match dictGet c.methods "init" with
    | none => (.ok (.inst n.1), n.2)
    | some initf =>
      let b := loxFunctionBind initf n.1 n.2
      let r := loxFunctionCall fuel b.1 args b.2
      match r.1 with
      | .ok _ => (.ok (.inst n.1), r.2)
      | .error s => (.error s, r.2)

end

/-- The possible outcomes of interpreter.py `Interpreter.interpret`: normal
completion, a `LoxRuntimeError` caught and reported through
`Lox.runtime_error`, or an uncaught host exception escaping `interpret`
(the `except` clause only catches `LoxRuntimeError`). -/
inductive RunOutcome where
  | ok
  | runtimeError (token : Token) (message : String)
  | hostCrash (message : String)
  | fuelOut

/-- interpreter.py `Interpreter.interpret`: run the statements; catch
`LoxRuntimeError` (the runtime-error reporting path); anything else escapes
to the host.  An escaping `ReturnException` would likewise crash the host
(the resolver rejects top-level returns before execution). -/
def interpret (fuel : Nat) (stmts : List Stmt) (st : St) : RunOutcome × St :=
  let r := executeSeq fuel stmts st
  match r.1 with
  | .ok _ => (.ok, r.2)
  | .error (.rtError t m) => (.runtimeError t m, r.2)
  | .error (.hostError m) => (.hostCrash m, r.2)
  | .error (.ret _) => (.hostCrash "uncaught ReturnException", r.2)
  | .error .fuelOut => (.fuelOut, r.2)

/-- The initial interpreter state: a global environment seeded with `clock`
(`Interpreter.__init__`), no instances, an empty resolution table.  The
parameter is the opaque value the `clock` native returns. -/
def initSt (t : ℚ) : St :=
  ⟨[⟨[("clock", Value.clock)], none⟩], [], 0, 0, [], [], t⟩

/-! ### Claim theorems about the evaluator -/

theorem execute_block_restores (fuel : Nat) (stmts : List Stmt) (envId : Nat)
    (st : St) :
    ((execute_block fuel stmts envId st).2).environment = st.environment := by
  cases fuel with
  | zero => rfl
  | succ n => rfl

theorem defineParams_environment :
    ∀ (ps : List Token) (as_ : List Value) (envId : Nat) (st : St),
      (defineParams ps as_ envId st).environment = st.environment := by
  intro ps
  induction ps with
  | nil => intro as_ envId st; cases as_ <;> rfl
  | cons p rest ih =>
    intro as_ envId st
    cases as_ with
    | nil => rfl
    | cons a arest => exact ih arest envId _

/-- C4: after a block execution — and hence after every function-call body,
which runs through the same `execute_block` — whether it completed normally
or unwound with a return signal or a runtime error, the evaluator's current
environment is identical (the same store index) to the one current
immediately before entry. -/
theorem c4_environment_restored_after_block (fuel : Nat) (stmts : List Stmt)
    (envId : Nat) (st : St) (f : LoxFunctionV) (args : List Value) :
    ((execute_block fuel stmts envId st).2).environment = st.environment ∧
    ((execute fuel (.block stmts) st).2).environment = st.environment ∧
    ((loxFunctionCall fuel f args st).2).environment = st.environment := by
  refine ⟨execute_block_restores fuel stmts envId st, ?_, ?_⟩
  · cases fuel with
    | zero => rfl
    | succ n =>
      show ((execute_block n stmts (st.newEnv (some st.environment)).1
        (st.newEnv (some st.environment)).2).2).environment = st.environment
      rw [execute_block_restores]
      rfl
  · cases fuel with
    | zero => rfl
    | succ n =>
      rw [loxFunctionCall]
      rcases hE : execute_block n f.declaration.body (st.newEnv (some f.closure)).1
        (defineParams f.declaration.params args (st.newEnv (some f.closure)).1
          (st.newEnv (some f.closure)).2) with ⟨r1, r2⟩
      have hr2 : r2.environment = st.environment := by
        have := execute_block_restores n f.declaration.body
          (st.newEnv (some f.closure)).1
          (defineParams f.declaration.params args (st.newEnv (some f.closure)).1
            (st.newEnv (some f.closure)).2)
        rw [hE] at this
        rw [this, defineParams_environment]
        rfl
      dsimp only
      cases r1 with
      | ok _ =>
        by_cases hi : f.is_initializer <;> simp [hi, stGetAt, stAncestor, hr2]
      | error sg =>
        cases sg with
        | ret v =>
          by_cases hi : f.is_initializer <;> simp [hi, stGetAt, stAncestor, hr2]
        | rtError t m => exact hr2
        | hostError m => exact hr2
        | fuelOut => exact hr2

/-- The token `+` on line 1. -/
def plusTok : Token := ⟨.PLUS, "+", none, 1⟩

/-- C1 (refutation of the error path): `+` on two numbers adds and on two
strings concatenates, but on any other combination the source evaluates
`self.operator` on the `Interpreter` object, which has no such attribute:
the host raises `AttributeError`, so no `LoxRuntimeError` with the message
"Operands must be two numbers or two strings." is ever constructed, and
`interpret`'s runtime-error reporting path (which catches only
`LoxRuntimeError`) is bypassed. -/
theorem c1_plus_mixed_raises_attribute_error (st : St) (fuel : Nat) :
    (evaluate (fuel + 2) (.binary (.literal (.num 1)) plusTok (.literal (.num 2))) st).1 =
      .ok (.num 3) ∧
    (evaluate (fuel + 2) (.binary (.literal (.str "a")) plusTok (.literal (.str "b"))) st).1 =
      .ok (.str "ab") ∧
    (evaluate (fuel + 2) (.binary (.literal (.str "a")) plusTok (.literal (.num 1))) st).1 =
      .error (.hostError "AttributeError: 'Interpreter' object has no attribute 'operator'") ∧
    (interpret (fuel + 4) [.print (.binary (.literal (.str "a")) plusTok (.literal (.num 1)))] st).1 =
      .hostCrash "AttributeError: 'Interpreter' object has no attribute 'operator'" := by
  refine ⟨?_, rfl, rfl, rfl⟩
  show Prod.fst (evaluate_binary_op plusTok (.num 1) (.num 2), st) = .ok (.num 3)
  norm_num [evaluate_binary_op, plusTok]

/-- The state after `var x = 1;` at the global scope. -/
def c2St : St := (initSt 0).envDefine 0 "x" (.num 1)

/-- C2 (refutation): `evaluate_assign` writes the assigned value into the
target binding but has no `return` statement, so the assignment expression
evaluates to `None` (Lox `nil`), not to the assigned value — on the global
path and on the resolved-distance path alike. -/
theorem c2_assign_result_is_nil :
    (evaluate 5 (.assign 0 xTok (.literal (.num 2))) c2St).1 = .ok Value.nil ∧
    stGetAt (evaluate 5 (.assign 0 xTok (.literal (.num 2))) c2St).2 0 0 "x" =
      some (.num 2) ∧
    (evaluate 5 (.assign 0 xTok (.literal (.num 3)))
      { c2St with locals := [(0, 0)] }).1 = .ok Value.nil ∧
    stGetAt (evaluate 5 (.assign 0 xTok (.literal (.num 3)))
      { c2St with locals := [(0, 0)] }).2 0 0 "x" = some (.num 3) ∧
    Value.nil ≠ Value.num 2 := by
  refine ⟨rfl, rfl, rfl, rfl, by simp⟩

/-- C7 (refutation): the canonical stringification used by `print` renders
the Lox booleans through the host's `str`, producing `"True"`/`"False"`,
not the claimed `"true"`/`"false"`. -/
theorem c7_booleans_stringify_capitalized :
    stringfy (initSt 0) (.bool true) = "True" ∧
    stringfy (initSt 0) (.bool false) = "False" ∧
    (interpret 50 [.print (.literal (.bool true))] (initSt 0)).2.output = ["True"] ∧
    ("True" : String) ≠ "true" :=
  ⟨rfl, rfl, rfl, by decide⟩

/-- The token `==` on line 1. -/
def eqeqTok : Token := ⟨.EQUAL_EQUAL, "==", none, 1⟩

/-- C10: Lox `==` between a Bool and a Number follows the host's cross-type
numeric equality: `true == 1` and `false == 0` both evaluate to `true`, in
every interpreter state, leaving the state unchanged. -/
theorem c10_bool_number_equality (st : St) (fuel : Nat) :
    is_equal (.bool true) (.num 1) = true ∧
    is_equal (.bool false) (.num 0) = true ∧
    (evaluate (fuel + 2) (.binary (.literal (.bool true)) eqeqTok (.literal (.num 1))) st).1 =
      .ok (.bool true) ∧
    (evaluate (fuel + 2) (.binary (.literal (.bool false)) eqeqTok (.literal (.num 0))) st).1 =
      .ok (.bool true) ∧
    (evaluate (fuel + 2) (.binary (.literal (.bool true)) eqeqTok (.literal (.num 1))) st).2 = st := by
  refine ⟨rfl, rfl, rfl, rfl, rfl⟩

/-- Distance 0 reads the environment's own map: `ancestor(0)` is the
environment itself. -/
theorem stGetAt_zero (st : St) (i : Nat) (name : String) :
    stGetAt st i 0 name =
      some ((dictGet (st.envGet i).values name).getD Value.nil) := rfl

/-- C3: a call of a user function whose `is_initializer` flag is true never
propagates a return signal; whenever it produces a value, that value is the
`this` binding at distance 0 in the function's closure (read in the state
the call ends in) — covering both the normal-completion and the bare
`return;` paths.  And calling a class whose method table contains `init`
yields the freshly constructed instance (the next instance-store index). -/
theorem c3_initializer_call_returns_this (fuel : Nat) (f : LoxFunctionV)
    (args : List Value) (st : St) (c : LoxClassV) (m : LoxFunctionV)
    (cargs : List Value) (v : Value)
    (hinit : f.is_initializer = true) :
    ((loxFunctionCall fuel f args st).1 = .ok v →
      stGetAt (loxFunctionCall fuel f args st).2 f.closure 0 "this" = some v) ∧
    (∀ u, (loxFunctionCall fuel f args st).1 ≠ .error (.ret u)) ∧
    (dictGet c.methods "init" = some m →
      (loxClassCall fuel c cargs st).1 = .ok v → v = .inst st.insts.length) := by
  refine ⟨?_, ?_, ?_⟩
  · cases fuel with
    | zero => intro h; exact absurd h (by simp [loxFunctionCall])
    | succ n =>
      rw [loxFunctionCall]
      rcases hE : execute_block n f.declaration.body (st.newEnv (some f.closure)).1
        (defineParams f.declaration.params args (st.newEnv (some f.closure)).1
          (st.newEnv (some f.closure)).2) with ⟨r1, r2⟩
      dsimp only
      cases r1 with
      | ok _ =>
        intro h
        simp [hinit, stGetAt_zero] at h ⊢
        exact h
      | error sg =>
        cases sg with
        | ret u =>
          intro h
          simp [hinit, stGetAt_zero] at h ⊢
          exact h
        | rtError t msg => intro h; simp at h
        | hostError msg => intro h; simp at h
        | fuelOut => intro h; simp at h
  · intro u
    cases fuel with
    | zero => simp [loxFunctionCall]
    | succ n =>
      rw [loxFunctionCall]
      rcases hE : execute_block n f.declaration.body (st.newEnv (some f.closure)).1
        (defineParams f.declaration.params args (st.newEnv (some f.closure)).1
          (st.newEnv (some f.closure)).2) with ⟨r1, r2⟩
      dsimp only
      cases r1 with
      | ok _ => simp [hinit, stGetAt_zero]
      | error sg =>
        cases sg with
        | ret w => simp [hinit, stGetAt_zero]
        | rtError t msg => simp
        | hostError msg => simp
        | fuelOut => simp
  · intro hm
    cases fuel with
    | zero => intro h; exact absurd h (by simp [loxClassCall])
    | succ n =>
      rw [loxClassCall]
      rw [show dictGet c.methods "init" = some m from hm]
      dsimp only
      rcases hr : (loxFunctionCall n
        (loxFunctionBind m (st.newInst c).1 (st.newInst c).2).1 cargs
        (loxFunctionBind m (st.newInst c).1 (st.newInst c).2).2) with ⟨q1, q2⟩
      dsimp only
      cases q1 with
      | ok w =>
        intro h
        simp at h
        rw [← h]
        rfl
      | error sg => intro h; simp at h

/-- An initializer with an empty parameter list and a bare `return;` body,
whose closure (environment 1) binds `this` to the number 42. -/
def c3f : LoxFunctionV :=
  ⟨⟨⟨.IDENTIFIER, "init", none, 1⟩, [], [.returnStmt ⟨.RETURN, "return", none, 1⟩ none]⟩, 1, true⟩

/-- A state whose store holds the global environment and the closure for
`c3f`. -/
def c3St : St :=
  ⟨[⟨[("clock", .clock)], none⟩, ⟨[("this", .num 42)], some 0⟩], [], 0, 0, [], [], 0⟩

/-- An `init` method with an empty body over the global closure. -/
def c3initm : LoxFunctionV := ⟨⟨⟨.IDENTIFIER, "init", none, 1⟩, [], []⟩, 0, true⟩

/-- A class whose method table contains `init`. -/
def c3G : LoxClassV := ⟨"G", [("init", c3initm)]⟩

/-- Witness for C3: calling the initializer `c3f` (whose body unwinds via a
bare `return;`) yields the closure's `this` binding, and calling the class
`c3G` (whose method table contains `init`) yields the fresh instance 0. -/
theorem c3_initializer_call_returns_this_witness :
    c3f.is_initializer = true ∧
    (loxFunctionCall 10 c3f [] c3St).1 = .ok (.num 42) ∧
    stGetAt (loxFunctionCall 10 c3f [] c3St).2 c3f.closure 0 "this" = some (.num 42) ∧
    dictGet c3G.methods "init" = some c3initm ∧
    (loxClassCall 10 c3G [] (initSt 0)).1 = .ok (.inst 0) := by
  refine ⟨rfl, rfl, ?_, rfl, rfl⟩
  exact (c3_initializer_call_returns_this 10 c3f [] c3St c3G c3initm [] (.num 42) rfl).1 rfl

end PyLox
